import Mathlib

/-!
Verification of the booking-admission core of the Booking_API repository
(`src/app.py`): the Schedule Store data model, the booking admission chain
(`create_booking`), class creation (`create_class`), the listing endpoints
(`get_classes`, `get_bookings`) and the display-timezone helper
(`convert_to_timezone`), shallowly embedded in Lean.

Instants in time are modelled as integers (the code keeps every datetime in
the single reference timezone Asia/Kolkata and only ever compares them, so
chronological order is all that matters); string rendering of an instant
(`datetime.isoformat`) is modelled by an executable rendering function that
is injective on instants, and the `zoneinfo` timezone database is modelled
by a finite table of named UTC offsets.
-/

deriving instance DecidableEq for Except

namespace BookingAPI

/-- One row of `ClassSchedule` (src/app.py lines 30-37): id, name,
instructor, `date_time` stored in the reference timezone, capacity.
The `bookings` relationship is represented by the store's booking list,
filtered on `class_id`. -/
structure ClassSchedule where
  id : String
  name : String
  instructor : String
  date_time : Int
  capacity : Int
deriving DecidableEq, Repr

/-- One row of `Booking` (src/app.py lines 39-45). -/
structure Booking where
  id : String
  class_id : String
  user_name : String
  user_email : String
  booking_time : Int
deriving DecidableEq, Repr

/-- The SQLite database: the `class_schedule` and `booking` tables, in
insertion order. -/
structure StoreState where
  classes : List ClassSchedule
  bookings : List Booking
deriving DecidableEq, Repr

/-- A character of the regex class `\w` (`[A-Za-z0-9_]`). -/
def isWordChar (c : Char) : Bool :=
  c.isAlpha || c.isDigit || c = '_'

/-- A character of the regex class `[\w\.-]`. -/
def isLocalChar (c : Char) : Bool :=
  isWordChar c || c = '.' || c = '-'

/-- Matches `\w+$`: a non-empty run of word characters ending the input. -/
def matchWordEnd (cs : List Char) : Bool :=
  !cs.isEmpty && cs.all isWordChar

/-- Matches `\.\w+$`. -/
def matchDotWord (cs : List Char) : Bool :=
  match cs with
  | '.' :: rest => matchWordEnd rest
  | _ => false

/-- Matches `[\w\.-]+\.\w+$` by backtracking over the split point, exactly
as the regex engine does. -/
def matchDomain (cs : List Char) : Bool :=
  match cs with
  | [] => false
  | c :: rest => isLocalChar c && (matchDotWord rest || matchDomain rest)

/-- Matches `@[\w\.-]+\.\w+$`. -/
def matchAtDomain (cs : List Char) : Bool :=
  match cs with
  | '@' :: rest => matchDomain rest
  | _ => false

/-- Matches `^[\w\.-]+@[\w\.-]+\.\w+$` by backtracking over the split
point between the local part and the `@`. -/
def matchEmail (cs : List Char) : Bool :=
  match cs with
  | [] => false
  | c :: rest => isLocalChar c && (matchAtDomain rest || matchEmail rest)

/-- `validate_email` (src/app.py lines 57-61): full-anchored match of the
pattern `^[\w\.-]+@[\w\.-]+\.\w+$`. -/
def validate_email (email : String) : Bool :=
  matchEmail email.toList

/-- `validate_class_type` (src/app.py lines 63-66). -/
def validate_class_type (name : String) : Bool :=
  ["Yoga", "Zumba", "HIIT"].contains name

/-- Python's `str.strip()` with no argument: remove leading and trailing
whitespace characters. -/
def strip (s : String) : String :=
  ⟨((s.toList.dropWhile Char.isWhitespace).reverse.dropWhile
      Char.isWhitespace).reverse⟩

/-- The digit value of a character, when it is a decimal digit. -/
def digitVal (c : Char) : Option Nat :=
  if c.isDigit then some (c.toNat - 48) else none

/-- Whether a year is a leap year (Gregorian rule). -/
def isLeapYear (y : Nat) : Bool :=
  y % 4 = 0 && (y % 100 ≠ 0 || y % 400 = 0)

/-- Number of days in a month of a given year. -/
def daysInMonth (y m : Nat) : Nat :=
  if m = 1 || m = 3 || m = 5 || m = 7 || m = 8 || m = 10 || m = 12 then 31
  else if m = 4 || m = 6 || m = 9 || m = 11 then 30
  else if isLeapYear y then 29 else 28

/-- Encode a calendar date-time as an instant: a mixed-radix integer that
is strictly monotone in the lexicographic order of
(year, month, day, hour, minute, second), so integer comparison of encoded
instants agrees with chronological comparison of the datetimes. -/
def encodeInstant (y mo d h mi s : Nat) : Int :=
  Int.ofNat (((((y * 13 + mo) * 32 + d) * 24 + h) * 60 + mi) * 60 + s)

/-- `datetime.fromisoformat` as used by `create_class`
(src/app.py line 246): strict parse of `YYYY-MM-DDTHH:MM:SS` with calendar
range checks; `none` models the `ValueError` branch (InvalidDateFormat).
The code attaches `tzinfo=ZoneInfo("Asia/Kolkata")`, i.e. the result is an
instant in the single reference timezone. -/
def fromisoformat (s : String) : Option Int :=
  match s.toList with
  | [y1, y2, y3, y4, '-', m1, m2, '-', d1, d2, 'T',
     h1, h2, ':', n1, n2, ':', s1, s2] => do
    let a ← digitVal y1
    let b ← digitVal y2
    let c ← digitVal y3
    let d ← digitVal y4
    let y := ((a * 10 + b) * 10 + c) * 10 + d
    let me ← digitVal m1
    let mf ← digitVal m2
    let mo := me * 10 + mf
    let da ← digitVal d1
    let db ← digitVal d2
    let dd := da * 10 + db
    let ha ← digitVal h1
    let hb ← digitVal h2
    let hh := ha * 10 + hb
    let na ← digitVal n1
    let nb ← digitVal n2
    let mi := na * 10 + nb
    let sa ← digitVal s1
    let sb ← digitVal s2
    let ss := sa * 10 + sb
    if 1 ≤ mo ∧ mo ≤ 12 ∧ 1 ≤ dd ∧ dd ≤ daysInMonth y mo ∧
        hh ≤ 23 ∧ mi ≤ 59 ∧ ss ≤ 59 then
      some (encodeInstant y mo dd hh mi ss)
    else
      none
  | _ => none

/-- Model of the `zoneinfo` timezone database: the UTC offset, in minutes,
of each valid timezone name; `ZoneInfo(tz)` raises for a name outside the
table. Only a representative finite snapshot is needed: the claims depend
only on whether a name is present. -/
def zoneOffset (tz : String) : Option Int :=
  [("Asia/Kolkata", (330 : Int)), ("UTC", 0), ("America/New_York", -300),
   ("Europe/London", 60), ("Asia/Tokyo", 540)].lookup tz

/-- Model of `datetime.isoformat()` on a stored (reference-timezone)
instant: an executable rendering, injective on instants. -/
def isoformat (t : Int) : String :=
  "ist:" ++ toString t

/-- Model of rendering `dt.astimezone(tz)` in ISO format: the same instant
displayed at the given UTC offset. -/
def isoformatAt (t off : Int) : String :=
  "local:" ++ toString (t + off) ++ "/" ++ toString off

/-- `convert_to_timezone` (src/app.py lines 68-75): convert to the target
zone and render; on any failure (unknown timezone name) fall back to the
unconverted `isoformat` of the stored datetime. -/
def convert_to_timezone (dt : Int) (tz_name : String) : String :=
  match zoneOffset tz_name with
  | some off => isoformatAt dt off
  | none => isoformat dt

/-- The bookings of class `cid`: the `bookings` relationship of
`ClassSchedule` (src/app.py line 37), i.e. the rows of `booking` whose
`class_id` matches. -/
def bookingsOf (s : StoreState) (cid : String) : List Booking :=
  s.bookings.filter (fun b => b.class_id == cid)

/-- `len(cls.bookings)`: the number of bookings of class `cid`. -/
def bookingCountFor (s : StoreState) (cid : String) : Nat :=
  (bookingsOf s cid).length

/-- `ClassSchedule.query.get(cid)`: primary-key lookup. -/
def findClass (s : StoreState) (cid : String) : Option ClassSchedule :=
  s.classes.find? (fun c => c.id == cid)

/-- `Booking.query.filter_by(class_id=cid, user_email=ue).first()`. -/
def findDuplicate (s : StoreState) (cid ue : String) : Option Booking :=
  s.bookings.find? (fun b => b.class_id == cid && b.user_email == ue)

/-- The errors `create_booking` can return with status 400/404
(src/app.py lines 112-156), named as in the spec's taxonomy. -/
inductive BookErr where
  | MissingField
  | InvalidEmail
  | EmptyUserName
  | NotFound
  | PastClass
  | ClassFull
  | AlreadyBooked
deriving DecidableEq, Repr

/-- The JSON body of a `POST /api/book` request; a field is `none` when
the key is absent from the body. -/
structure BookingRequest where
  class_id : Option String
  user_name : Option String
  user_email : Option String
deriving DecidableEq, Repr

/-- The commit step of `create_booking` (src/app.py lines 158-164):
construct the `Booking` row with `booking_time` defaulted to the current
instant and insert it. This step performs no validation of its own. -/
def addBooking (s : StoreState) (now : Int) (nid cid un ue : String) :
    StoreState × Booking :=
  let b : Booking :=
    { id := nid, class_id := cid, user_name := un, user_email := ue,
      booking_time := now }
  ({ s with bookings := s.bookings ++ [b] }, b)

/-- `create_booking` (src/app.py lines 112-176): the booking admission
chain. `now` is the current instant in the reference timezone and `nid`
the freshly generated booking id. On error the store is untouched (every
error path returns before `db.session.add`). -/
def create_booking (s : StoreState) (now : Int) (nid : String)
    (req : BookingRequest) : Except BookErr (StoreState × Booking) :=
  match req.class_id, req.user_name, req.user_email with
  | some cid, some un, some ue =>
    if !validate_email ue then
      .error .InvalidEmail
    else if (strip un).isEmpty then
      .error .EmptyUserName
    else
      match findClass s cid with
      | none => .error .NotFound
      | some cls =>
        if cls.date_time < now then
          .error .PastClass
        else if cls.capacity ≤ (bookingCountFor s cls.id : Int) then
          .error .ClassFull
        else
          match findDuplicate s cid ue with
          | some _ => .error .AlreadyBooked
          | none => .ok (addBooking s now nid cid un ue)
  | _, _, _ => .error .MissingField

/-- The errors `create_class` can return with status 400
(src/app.py lines 219-277). -/
inductive ClassErr where
  | MissingField
  | InvalidClassType
  | InvalidDateFormat
  | PastSchedule
  | InvalidCapacity
deriving DecidableEq, Repr

/-- The JSON body of a `POST /api/classes` request; a field is `none` when
the key is absent from the body. -/
structure ClassRequest where
  name : Option String
  instructor : Option String
  date_time : Option String
  capacity : Option Int
deriving DecidableEq, Repr

/-- `create_class` (src/app.py lines 219-277): missing-field check, class
type check, ISO-8601 parse (a `ValueError` is caught as the invalid date
format error), past-schedule check, capacity check, then insertion of the
new class with the freshly generated id `nid`. -/
def create_class (s : StoreState) (now : Int) (nid : String)
    (req : ClassRequest) : Except ClassErr (StoreState × ClassSchedule) :=
  match req.name, req.instructor, req.date_time, req.capacity with
  | some name, some instr, some dts, some cap =>
    if !validate_class_type name then
      .error .InvalidClassType
    else
      match fromisoformat dts with
      | none => .error .InvalidDateFormat
      | some dt =>
        if dt < now then
          .error .PastSchedule
        else if cap ≤ 0 then
          .error .InvalidCapacity
        else
          let c : ClassSchedule :=
            { id := nid, name := name, instructor := instr,
              date_time := dt, capacity := cap }
          .ok ({ s with classes := s.classes ++ [c] }, c)
  | _, _, _, _ => .error .MissingField

/-- One element of the JSON array returned by `GET /api/classes`
(src/app.py lines 95-105). -/
structure ClassEntry where
  id : String
  name : String
  instructor : String
  date_time : String
  capacity : Int
  available_slots : Int
deriving DecidableEq, Repr

/-- `get_classes` (src/app.py lines 78-110): the classes whose
`date_time` is at or after the current instant, with the `date_time`
rendered in the requested display timezone (default `Asia/Kolkata`) and
`available_slots = capacity - len(cls.bookings)`. -/
def get_classes (s : StoreState) (now : Int) (tz_param : Option String) :
    List ClassEntry :=
  let tz_name := tz_param.getD "Asia/Kolkata"
  (s.classes.filter (fun cls => now ≤ cls.date_time)).map (fun cls =>
    { id := cls.id, name := cls.name, instructor := cls.instructor,
      date_time := convert_to_timezone cls.date_time tz_name,
      capacity := cls.capacity,
      available_slots := cls.capacity - (bookingCountFor s cls.id : Int) })

/-- The errors `get_bookings` can return: status 400 for a missing or
invalid email parameter, status 500 for an internal failure (in the code,
a booking whose backref class row is gone would raise inside the list
comprehension and be caught by the outer handler). -/
inductive ApiErr where
  | InvalidEmailParam
  | Internal
deriving DecidableEq, Repr

/-- One element of the JSON array returned by `GET /api/bookings`
(src/app.py lines 199-212). -/
structure BookingEntry where
  id : String
  class_id : String
  class_name : String
  date_time : String
  user_name : String
  user_email : String
  booking_time : String
deriving DecidableEq, Repr

/-- Build one `get_bookings` result element: resolve the booking's parent
class (`b.class_schedule`) and render its `date_time` in the requested
display timezone. -/
def bookingEntry (s : StoreState) (tz_name : String) (b : Booking) :
    Except ApiErr BookingEntry :=
  match findClass s b.class_id with
  | some cls =>
    .ok { id := b.id, class_id := b.class_id, class_name := cls.name,
          date_time := convert_to_timezone cls.date_time tz_name,
          user_name := b.user_name, user_email := b.user_email,
          booking_time := isoformat b.booking_time }
  | none => .error .Internal

/-- Build the `get_bookings` result list left to right; the first failing
element aborts the whole listing, as an exception raised inside the
source's list comprehension would. -/
def buildEntries (s : StoreState) (tz_name : String) :
    List Booking → Except ApiErr (List BookingEntry)
  | [] => .ok []
  | b :: rest =>
    match bookingEntry s tz_name b with
    | .error err => .error err
    | .ok e =>
      match buildEntries s tz_name rest with
      | .error err => .error err
      | .ok es => .ok (e :: es)

/-- `get_bookings` (src/app.py lines 178-217): require a present,
non-empty, syntactically valid email parameter, then list that email's
bookings joined with their parent class data. -/
def get_bookings (s : StoreState) (email tz_param : Option String) :
    Except ApiErr (List BookingEntry) :=
  let tz_name := tz_param.getD "Asia/Kolkata"
  match email with
  | none => .error .InvalidEmailParam
  | some e =>
    if e.isEmpty || !validate_email e then
      .error .InvalidEmailParam
    else
      buildEntries s tz_name (s.bookings.filter (fun b => b.user_email == e))

/-- The states of the store reachable through the API's two mutating
operations, starting from the empty database. The side condition on
`stepClass` models the freshness of `uuid.uuid4()` primary keys. -/
inductive Reachable : StoreState → Prop where
  | init : Reachable ⟨[], []⟩
  | stepClass {s s' : StoreState} {now : Int} {nid : String}
      {req : ClassRequest} {c : ClassSchedule}
      (hr : Reachable s) (hfresh : ∀ c0 ∈ s.classes, c0.id ≠ nid)
      (h : create_class s now nid req = .ok (s', c)) : Reachable s'
  | stepBooking {s s' : StoreState} {now : Int} {nid : String}
      {req : BookingRequest} {b : Booking}
      (hr : Reachable s)
      (h : create_booking s now nid req = .ok (s', b)) : Reachable s'

/-- The store invariants maintained by the API: class ids are pairwise
distinct, every booking references an existing class, no class is booked
beyond its capacity, and no two bookings share a
`(class_id, user_email)` pair. -/
structure Inv (s : StoreState) : Prop where
  idsNodup : (s.classes.map (fun c => c.id)).Nodup
  fk : ∀ b ∈ s.bookings, ∃ c ∈ s.classes, c.id = b.class_id
  capOk : ∀ c ∈ s.classes, (bookingCountFor s c.id : Int) ≤ c.capacity
  dupFree : s.bookings.Pairwise
    (fun a b => ¬(a.class_id = b.class_id ∧ a.user_email = b.user_email))

/-- All fields of a `get_classes` result element except the formatted
`date_time` string. -/
def classEntryCore (e : ClassEntry) : String × String × String × Int × Int :=
  (e.id, e.name, e.instructor, e.capacity, e.available_slots)

/-- All fields of a `get_bookings` result element except the formatted
class `date_time` string. -/
def bookingEntryCore (e : BookingEntry) :
    String × String × String × String × String × String :=
  (e.id, e.class_id, e.class_name, e.user_name, e.user_email, e.booking_time)

/-- The instant `2030-01-01T10:00:00` in the reference timezone, encoded. -/
def sampleT : Int := 72965959200

/-- A well-formed class-creation request. -/
def sampleClassReq : ClassRequest :=
  ⟨some "Yoga", some "Jane", some "2030-01-01T10:00:00", some 2⟩

/-- The class created from `sampleClassReq` with id `c1`. -/
def sampleC1 : ClassSchedule := ⟨"c1", "Yoga", "Jane", sampleT, 2⟩

/-- The store after creating `sampleC1` in the empty store. -/
def sampleS1 : StoreState := ⟨[sampleC1], []⟩

/-- A well-formed booking request for class `c1`. -/
def sampleBookReq : BookingRequest :=
  ⟨some "c1", some "Amy", some "a@example.com"⟩

/-- The booking created from `sampleBookReq` at instant 5 with id `b1`. -/
def sampleB1 : Booking := ⟨"b1", "c1", "Amy", "a@example.com", 5⟩

/-- The store after additionally committing `sampleB1`. -/
def sampleS2 : StoreState := ⟨[sampleC1], [sampleB1]⟩

/-- A class identical to `sampleC1` but with capacity 1. -/
def fullC : ClassSchedule := ⟨"c1", "Yoga", "Jane", sampleT, 1⟩

/-- A store in which class `c1` is exactly at capacity. -/
def fullS : StoreState := ⟨[fullC], [sampleB1]⟩

/-- At most one booking exists per `(class_id, user_email)` pair. -/
def DupFree (s : StoreState) : Prop :=
  s.bookings.Pairwise
    (fun a b => ¬(a.class_id = b.class_id ∧ a.user_email = b.user_email))

/-- A `get_bookings` result element with no timezone conversion applied:
the class `date_time` rendered directly by `isoformat`. -/
def bookingEntryRaw (s : StoreState) (b : Booking) :
    Except ApiErr BookingEntry :=
  match findClass s b.class_id with
  | some cls =>
    .ok { id := b.id, class_id := b.class_id, class_name := cls.name,
          date_time := isoformat cls.date_time,
          user_name := b.user_name, user_email := b.user_email,
          booking_time := isoformat b.booking_time }
  | none => .error .Internal

/-- The `get_bookings` result list with no timezone conversion applied. -/
def buildEntriesRaw (s : StoreState) :
    List Booking → Except ApiErr (List BookingEntry)
  | [] => .ok []
  | b :: rest =>
    match bookingEntryRaw s b with
    | .error err => .error err
    | .ok e =>
      match buildEntriesRaw s rest with
      | .error err => .error err
      | .ok es => .ok (e :: es)

/-- A second booking request for class `c1` with a distinct email. -/
def sampleBookReq2 : BookingRequest :=
  ⟨some "c1", some "Bob", some "b@example.com"⟩

/-- The booking created from `sampleBookReq2` at instant 7 with id `b2`. -/
def sampleB2 : Booking := ⟨"b2", "c1", "Bob", "b@example.com", 7⟩

/-- The store after additionally committing `sampleB2`. -/
def sampleS3 : StoreState := ⟨[sampleC1], [sampleB1, sampleB2]⟩

/-- The instant `2020-01-01T00:00:00` in the reference timezone, encoded. -/
def pastT : Int := 72606499200

/-- A creation request with an allowed type, non-positive capacity and a
past start time. -/
def pastCapReq : ClassRequest :=
  ⟨some "Yoga", some "Jane", some "2020-01-01T00:00:00", some 0⟩

/-- A booking request whose `user_name` is present but all whitespace. -/
def wsNameReq : BookingRequest :=
  ⟨some "c1", some "   ", some "a@example.com"⟩

/-- A creation request whose instructor is the empty string. -/
def emptyInstrReq : ClassRequest :=
  ⟨some "Yoga", some "", some "2030-01-01T10:00:00", some 3⟩

/-- The class stored from `emptyInstrReq`. -/
def emptyInstrC : ClassSchedule := ⟨"c7", "Yoga", "", sampleT, 3⟩

/-! ### Inversion lemmas for the two mutating operations -/

/-- A successful `create_class` call passed every check and appended the
new class row, leaving the booking table untouched. -/
theorem create_class_ok_inv {s s' : StoreState} {now : Int} {nid : String}
    {req : ClassRequest} {c : ClassSchedule}
    (h : create_class s now nid req = .ok (s', c)) :
    ∃ name instr dts cap dt,
      req = ⟨some name, some instr, some dts, some cap⟩ ∧
      validate_class_type name = true ∧
      fromisoformat dts = some dt ∧
      ¬ dt < now ∧ 0 < cap ∧
      c = ⟨nid, name, instr, dt, cap⟩ ∧
      s' = ⟨s.classes ++ [c], s.bookings⟩ := by
  rcases req with ⟨name?, instr?, dts?, cap?⟩
  cases name? with
  | none => simp [create_class] at h
  | some name =>
  cases instr? with
  | none => simp [create_class] at h
  | some instr =>
  cases dts? with
  | none => simp [create_class] at h
  | some dts =>
  cases cap? with
  | none => simp [create_class] at h
  | some cap =>
  simp only [create_class] at h
  split at h
  · exact absurd h (by simp)
  · rename_i hv
    split at h
    · exact absurd h (by simp)
    · rename_i dt hdt
      split at h
      · exact absurd h (by simp)
      · rename_i hpast
        split at h
        · exact absurd h (by simp)
        · rename_i hcap
          refine ⟨name, instr, dts, cap, dt, rfl, ?_, hdt, hpast, ?_, ?_⟩
          · simpa using hv
          · omega
          · rcases h with ⟨rfl, rfl⟩
            exact ⟨rfl, rfl⟩

/-- A successful `create_booking` call passed every check and appended the
new booking row, leaving the class table untouched. -/
theorem create_booking_ok_inv {s s' : StoreState} {now : Int} {nid : String}
    {req : BookingRequest} {b : Booking}
    (h : create_booking s now nid req = .ok (s', b)) :
    ∃ cid un ue cls,
      req = ⟨some cid, some un, some ue⟩ ∧
      validate_email ue = true ∧
      (strip un).isEmpty = false ∧
      findClass s cid = some cls ∧
      ¬ cls.date_time < now ∧
      (bookingCountFor s cls.id : Int) < cls.capacity ∧
      findDuplicate s cid ue = none ∧
      b = ⟨nid, cid, un, ue, now⟩ ∧
      s' = ⟨s.classes, s.bookings ++ [b]⟩ := by
  rcases req with ⟨cid?, un?, ue?⟩
  cases cid? with
  | none => simp [create_booking] at h
  | some cid =>
  cases un? with
  | none => simp [create_booking] at h
  | some un =>
  cases ue? with
  | none => simp [create_booking] at h
  | some ue =>
  simp only [create_booking] at h
  split at h
  · exact absurd h (by simp)
  · rename_i hmail
    split at h
    · exact absurd h (by simp)
    · rename_i hname
      split at h
      · exact absurd h (by simp)
      · rename_i cls hcls
        split at h
        · exact absurd h (by simp)
        · rename_i hpast
          split at h
          · exact absurd h (by simp)
          · rename_i hfull
            split at h
            · exact absurd h (by simp)
            · rename_i hdup
              simp only [addBooking, Except.ok.injEq, Prod.mk.injEq] at h
              refine ⟨cid, un, ue, cls, rfl, by simpa using hmail,
                by simpa using hname, hcls, hpast, by omega, hdup, ?_, ?_⟩
              · exact h.2.symm
              · rcases h with ⟨rfl, rfl⟩
                rfl

/-! ### Store invariants are preserved by both mutating operations -/

/-- A primary-key lookup returns a member row with the looked-up id. -/
theorem findClass_mem {s : StoreState} {cid : String} {cls : ClassSchedule}
    (h : findClass s cid = some cls) : cls ∈ s.classes ∧ cls.id = cid := by
  refine ⟨List.mem_of_find?_eq_some h, ?_⟩
  simpa using List.find?_some h

/-- Appending a booking raises the count of exactly its own class by 1. -/
theorem bookingCountFor_append (s : StoreState) (b : Booking) (cid : String) :
    bookingCountFor ⟨s.classes, s.bookings ++ [b]⟩ cid =
      bookingCountFor s cid + (if b.class_id = cid then 1 else 0) := by
  simp only [bookingCountFor, bookingsOf, List.filter_append,
    List.length_append]
  by_cases hb : b.class_id = cid
  · simp [hb]
  · simp [hb]

/-- The booking count ignores the class table. -/
theorem bookingCountFor_classes (cs : List ClassSchedule) (s : StoreState)
    (cid : String) :
    bookingCountFor ⟨cs, s.bookings⟩ cid = bookingCountFor s cid := rfl

/-- When the duplicate probe finds nothing, no stored booking has the
probed `(class_id, user_email)` pair. -/
theorem findDuplicate_none {s : StoreState} {cid ue : String}
    (h : findDuplicate s cid ue = none) :
    ∀ b ∈ s.bookings, ¬(b.class_id = cid ∧ b.user_email = ue) := by
  intro b hb hc
  have hnone := List.find?_eq_none.mp h b hb
  simp [hc.1, hc.2] at hnone

/-- The empty database satisfies the invariants. -/
theorem inv_init : Inv ⟨[], []⟩ := by
  refine ⟨by simp, by simp, ?_, by simp⟩
  intro c hc
  simp at hc

/-- `create_class` preserves the invariants, given a fresh id. -/
theorem inv_create_class {s s' : StoreState} {now : Int} {nid : String}
    {req : ClassRequest} {c : ClassSchedule}
    (hs : Inv s) (hfresh : ∀ c0 ∈ s.classes, c0.id ≠ nid)
    (h : create_class s now nid req = .ok (s', c)) : Inv s' := by
  obtain ⟨name, instr, dts, cap, dt, hreq, hv, hdt, hpast, hcap, hc, hs'⟩ :=
    create_class_ok_inv h
  subst hs'
  have hcid : c.id = nid := by rw [hc]
  constructor
  · simp only [List.map_append, List.map_cons, List.map_nil]
    rw [List.nodup_append]
    refine ⟨hs.idsNodup, by simp, ?_⟩
    intro x hx
    simp only [List.mem_map] at hx
    obtain ⟨c0, hc0, rfl⟩ := hx
    simp only [List.mem_cons, List.not_mem_nil, or_false, hcid]
    exact hfresh c0 hc0
  · intro b hb
    obtain ⟨c1, hc1, hc1id⟩ := hs.fk b hb
    exact ⟨c1, List.mem_append_left _ hc1, hc1id⟩
  · intro c0 hc0
    rw [show (⟨s.classes ++ [c], s.bookings⟩ : StoreState) =
        ⟨s.classes ++ [c], (⟨s.classes, s.bookings⟩ : StoreState).bookings⟩
      from rfl, bookingCountFor_classes]
    rcases List.mem_append.mp hc0 with hold | hnew
    · exact hs.capOk c0 hold
    · have hc0c : c0 = c := by simpa using hnew
      subst hc0c
      have hzero : bookingCountFor ⟨s.classes, s.bookings⟩ c0.id = 0 := by
        simp only [bookingCountFor, bookingsOf, List.length_eq_zero,
          List.filter_eq_nil_iff]
        intro b hb
        obtain ⟨c1, hc1, hc1id⟩ := hs.fk b hb
        simp only [beq_iff_eq]
        intro hbad
        exact hfresh c1 hc1 (by rw [hc1id, hbad, hcid])
      rw [show bookingCountFor ⟨s.classes, s.bookings⟩ c0.id =
          bookingCountFor s c0.id from rfl] at hzero
      rw [hzero]
      have : (0 : Int) < c0.capacity := by rw [hc]; exact_mod_cast hcap
      omega
  · exact hs.dupFree

/-- `create_booking` preserves the invariants. -/
theorem inv_create_booking {s s' : StoreState} {now : Int} {nid : String}
    {req : BookingRequest} {b : Booking}
    (hs : Inv s) (h : create_booking s now nid req = .ok (s', b)) : Inv s' := by
  obtain ⟨cid, un, ue, cls, hreq, hmail, hname, hcls, hpast, hlt, hdup,
    hb, hs'⟩ := create_booking_ok_inv h
  obtain ⟨hmem, hid⟩ := findClass_mem hcls
  subst hs'
  have hbcid : b.class_id = cid := by rw [hb]
  have hbue : b.user_email = ue := by rw [hb]
  constructor
  · exact hs.idsNodup
  · intro b0 hb0
    rcases List.mem_append.mp hb0 with hold | hnew
    · exact hs.fk b0 hold
    · have hb0b : b0 = b := by simpa using hnew
      subst hb0b
      exact ⟨cls, hmem, by rw [hid, hbcid]⟩
  · intro c0 hc0
    rw [show (⟨s.classes, s.bookings ++ [b]⟩ : StoreState) =
        ⟨(⟨s.classes, s.bookings⟩ : StoreState).classes,
          (⟨s.classes, s.bookings⟩ : StoreState).bookings ++ [b]⟩ from rfl]
    rw [show (⟨s.classes, s.bookings⟩ : StoreState) = s from rfl]
    rw [bookingCountFor_append]
    by_cases hcc : b.class_id = c0.id
    · have hc0cls : c0 = cls := by
        refine List.inj_on_of_nodup_map hs.idsNodup hc0 hmem ?_
        rw [← hcc, hbcid, hid]
      subst hc0cls
      simp only [hcc, if_pos]
      push_cast
      omega
    · simp only [hcc, if_neg, not_false_iff, Nat.add_zero]
      exact hs.capOk c0 hc0
  · rw [List.pairwise_append]
    refine ⟨hs.dupFree, by simp, ?_⟩
    intro a ha b0 hb0
    have hb0b : b0 = b := by simpa using hb0
    subst hb0b
    rw [hbcid, hbue]
    exact findDuplicate_none hdup a ha

/-- Every reachable store state satisfies the invariants. -/
theorem reachable_inv {s : StoreState} (h : Reachable s) : Inv s := by
  induction h with
  | init => exact inv_init
  | stepClass hr hfresh hok ih => exact inv_create_class ih hfresh hok
  | stepBooking hr hok ih => exact inv_create_booking ih hok

/-! ### Concrete reachable states for witnesses -/

/-- Creating `sampleC1` from the empty store succeeds. -/
theorem sampleS1_step :
    create_class ⟨[], []⟩ 0 "c1" sampleClassReq = .ok (sampleS1, sampleC1) := by
  rfl

/-- `sampleS1` is reachable. -/
theorem sampleS1_reachable : Reachable sampleS1 :=
  .stepClass .init (by intro c0 hc0; simp at hc0) sampleS1_step

/-- Booking `sampleB1` into `sampleS1` succeeds. -/
theorem sampleS2_step :
    create_booking sampleS1 5 "b1" sampleBookReq = .ok (sampleS2, sampleB1) := by
  rfl

/-- `sampleS2` is reachable. -/
theorem sampleS2_reachable : Reachable sampleS2 :=
  .stepBooking sampleS1_reachable sampleS2_step

/-! ### Congruence of listing results across display timezones -/

/-- A `get_bookings` element keeps every field except the class
`date_time` string independent of the display timezone. -/
theorem bookingEntry_core_eq (s : StoreState) (tzA tzB : String)
    (b : Booking) :
    Except.map bookingEntryCore (bookingEntry s tzA b) =
      Except.map bookingEntryCore (bookingEntry s tzB b) := by
  unfold bookingEntry
  cases findClass s b.class_id <;> simp [Except.map, bookingEntryCore]

/-- The whole `get_bookings` result agrees across display timezones on
success and failure alike, and on success agrees element by element on
every field but the class `date_time` string. -/
theorem buildEntries_core_eq (s : StoreState) (tzA tzB : String)
    (l : List Booking) :
    Except.map (List.map bookingEntryCore) (buildEntries s tzA l) =
      Except.map (List.map bookingEntryCore) (buildEntries s tzB l) := by
  induction l with
  | nil => rfl
  | cons b rest ih =>
    have hx := bookingEntry_core_eq s tzA tzB b
    simp only [buildEntries]
    cases hfA : bookingEntry s tzA b with
    | error e =>
      have hfB : bookingEntry s tzB b = .error e := by
        rw [hfA] at hx
        cases hg : bookingEntry s tzB b <;> rw [hg] at hx <;>
          simp [Except.map] at hx
        · rw [hx]
      rw [hfB]
    | ok eA =>
      rw [hfA] at hx
      cases hfB : bookingEntry s tzB b with
      | error e => rw [hfB] at hx; simp [Except.map] at hx
      | ok eB =>
        rw [hfB] at hx
        have hcore : bookingEntryCore eA = bookingEntryCore eB := by
          simpa [Except.map] using hx
        cases hA : buildEntries s tzA rest with
        | error e2 =>
          have hB : buildEntries s tzB rest = .error e2 := by
            rw [hA] at ih
            cases hB0 : buildEntries s tzB rest <;> rw [hB0] at ih <;>
              simp [Except.map] at ih
            · rw [ih]
          rw [hB]
        | ok la =>
          rw [hA] at ih
          cases hB : buildEntries s tzB rest with
          | error e2 => rw [hB] at ih; simp [Except.map] at ih
          | ok lb =>
            rw [hB] at ih
            have hl : la.map bookingEntryCore = lb.map bookingEntryCore := by
              simpa [Except.map] using ih
            simp [Except.map, hcore, hl]

/-- With all three body fields present, `create_booking` never reports a
missing field: every later outcome is a different error or success. -/
theorem create_booking_some_ne_missing (s : StoreState) (now : Int)
    (nid cid un ue : String) :
    create_booking s now nid ⟨some cid, some un, some ue⟩ ≠
      .error .MissingField := by
  intro h
  simp only [create_booking] at h
  split at h
  · simp at h
  · split at h
    · simp at h
    · split at h
      · simp at h
      · split at h
        · simp at h
        · split at h
          · simp at h
          · split at h
            · simp at h
            · simp at h

/-- With an unknown display timezone, each `get_bookings` element is the
unconverted one. -/
theorem bookingEntry_unknown_tz {tz : String} (h : zoneOffset tz = none)
    (s : StoreState) (b : Booking) :
    bookingEntry s tz b = bookingEntryRaw s b := by
  unfold bookingEntry bookingEntryRaw
  cases findClass s b.class_id <;> simp [convert_to_timezone, h]

/-- With an unknown display timezone, the whole `get_bookings` result is
the unconverted one. -/
theorem buildEntries_unknown_tz {tz : String} (h : zoneOffset tz = none)
    (s : StoreState) (l : List Booking) :
    buildEntries s tz l = buildEntriesRaw s l := by
  induction l with
  | nil => rfl
  | cons b rest ih =>
    simp only [buildEntries, buildEntriesRaw, bookingEntry_unknown_tz h, ih]

/-! ### The claims -/

/-- C1: in every reachable store state, every class's booking count is at
most its capacity; both mutating operations (`create_class` and
`create_booking`, the latter committing through `addBooking`) preserve
this. -/
theorem capacity_invariant {s : StoreState} (hs : Reachable s)
    (c : ClassSchedule) (hc : c ∈ s.classes) :
    (bookingCountFor s c.id : Int) ≤ c.capacity :=
  (reachable_inv hs).capOk c hc

/-- Witness for C1: the capacity bound holds for class `c1` in the
concrete reachable state `sampleS2`. -/
theorem capacity_invariant_witness :
    (bookingCountFor sampleS2 sampleC1.id : Int) ≤ sampleC1.capacity :=
  capacity_invariant sampleS2_reachable sampleC1 (by simp [sampleS2])

/-- C2 fails on the code: the commit step (`addBooking`, the model of
src/app.py lines 158-164) re-verifies nothing. At `fullS` class `c1` is
already at capacity, yet `addBooking` inserts a further booking instead
of failing with `ClassFull`, driving the count above capacity. -/
theorem commit_no_revalidation_cex :
    (bookingCountFor fullS "c1" : Int) = fullC.capacity ∧
    (addBooking fullS 6 "b2" "c1" "Bob" "b@example.com").1.bookings.length
      = 2 ∧
    fullC.capacity <
      (bookingCountFor
        (addBooking fullS 6 "b2" "c1" "Bob" "b@example.com").1 "c1" : Int) := by
  decide

/-- C2 (amended): the commit step performs no re-validation of its own;
the capacity and duplicate conditions are enforced solely by
`create_booking`'s pre-checks, which reject a violating request with
`ClassFull` or `AlreadyBooked` respectively and insert nothing (every
error path returns before the insert). -/
theorem precheck_rejects {s : StoreState} (now : Int)
    (nid cid un ue : String) (cls : ClassSchedule) (b0 : Booking)
    (hmail : validate_email ue = true)
    (hname : (strip un).isEmpty = false)
    (hcls : findClass s cid = some cls)
    (hpast : ¬ cls.date_time < now) :
    (cls.capacity ≤ (bookingCountFor s cls.id : Int) →
      create_booking s now nid ⟨some cid, some un, some ue⟩ =
        .error .ClassFull) ∧
    ((bookingCountFor s cls.id : Int) < cls.capacity →
      findDuplicate s cid ue = some b0 →
      create_booking s now nid ⟨some cid, some un, some ue⟩ =
        .error .AlreadyBooked) := by
  constructor
  · intro hfull
    simp [create_booking, hmail, hname, hcls, hpast, hfull]
  · intro hlt hdup
    have hnle : ¬ cls.capacity ≤ (bookingCountFor s cls.id : Int) :=
      not_le.mpr hlt
    simp [create_booking, hmail, hname, hcls, hpast, hnle, hdup]

/-- Witness for C2 (amended): at `fullS` a further booking is rejected
with `ClassFull`; at `sampleS2` a repeat email is rejected with
`AlreadyBooked`. -/
theorem precheck_rejects_witness :
    create_booking fullS 6 "b9"
      ⟨some "c1", some "Bob", some "b@example.com"⟩ = .error .ClassFull ∧
    create_booking sampleS2 6 "b9"
      ⟨some "c1", some "Zed", some "a@example.com"⟩ =
      .error .AlreadyBooked := by
  constructor
  · exact (precheck_rejects 6 "b9" "c1" "Bob" "b@example.com" fullC sampleB1
      (by decide) (by decide) (by rfl) (by decide)).1 (by decide)
  · exact (precheck_rejects 6 "b9" "c1" "Zed" "a@example.com" sampleC1
      sampleB1 (by decide) (by decide) (by rfl) (by decide)).2
      (by decide) (by rfl)

/-- C3: every reachable state has at most one booking per
`(class_id, user_email)` pair, and a successful `create_booking` never
commits a booking whose pair an existing booking already carries. -/
theorem duplicate_invariant {s : StoreState} (hs : Reachable s)
    (now : Int) (nid : String) (req : BookingRequest) (s' : StoreState)
    (b b0 : Booking) :
    DupFree s ∧
    (create_booking s now nid req = .ok (s', b) → b0 ∈ s.bookings →
      ¬(b0.class_id = b.class_id ∧ b0.user_email = b.user_email)) := by
  refine ⟨(reachable_inv hs).dupFree, ?_⟩
  intro hok hb0 hpair
  obtain ⟨cid, un, ue, cls, hreq, _, _, _, _, _, hdup, hb, _⟩ :=
    create_booking_ok_inv hok
  refine findDuplicate_none hdup b0 hb0 ⟨?_, ?_⟩
  · rw [hpair.1, hb]
  · rw [hpair.2, hb]

/-- Witness for C3: in the reachable state `sampleS2`, the pair
uniqueness holds, and the concrete successful booking of `sampleB2` does
not duplicate the pair of the stored `sampleB1`. -/
theorem duplicate_invariant_witness :
    DupFree sampleS2 ∧
    ¬(sampleB1.class_id = sampleB2.class_id ∧
      sampleB1.user_email = sampleB2.user_email) :=
  ⟨(duplicate_invariant sampleS2_reachable 7 "b2" sampleBookReq2 sampleS3
      sampleB2 sampleB1).1,
   (duplicate_invariant sampleS2_reachable 7 "b2" sampleBookReq2 sampleS3
      sampleB2 sampleB1).2 (by rfl) (by simp [sampleS2])⟩

/-- C4: once the structural, email, name and class-existence checks pass,
booking fails with `PastClass` exactly when the class's start time is
strictly before now; a class starting exactly at now is not rejected as
past (inclusive boundary), and proceeds to the capacity and duplicate
checks. -/
theorem book_pastclass_iff {s : StoreState} {now : Int}
    {nid cid un ue : String} {cls : ClassSchedule}
    (hmail : validate_email ue = true)
    (hname : (strip un).isEmpty = false)
    (hcls : findClass s cid = some cls) :
    (create_booking s now nid ⟨some cid, some un, some ue⟩ =
      .error .PastClass ↔ cls.date_time < now) := by
  have hunfold : create_booking s now nid ⟨some cid, some un, some ue⟩ =
      (if cls.date_time < now then .error .PastClass
       else if cls.capacity ≤ (bookingCountFor s cls.id : Int) then
         .error .ClassFull
       else
         match findDuplicate s cid ue with
         | some _ => .error .AlreadyBooked
         | none => .ok (addBooking s now nid cid un ue)) := by
    simp [create_booking, hmail, hname, hcls]
  rw [hunfold]
  by_cases hlt : cls.date_time < now
  · simp [hlt]
  · rw [if_neg hlt]
    simp only [hlt, iff_false]
    intro h
    split at h
    · simp at h
    · split at h
      · simp at h
      · simp at h

/-- Witness for C4: booking class `c1` one tick after its start time
fails with `PastClass`, matching the strict comparison. -/
theorem book_pastclass_iff_witness :
    (create_booking sampleS2 (sampleT + 1) "b9"
      ⟨some "c1", some "Zed", some "z@example.com"⟩ =
      .error .PastClass) ↔ sampleC1.date_time < sampleT + 1 :=
  book_pastclass_iff (by decide) (by decide) (by rfl)

/-- C5 fails on the code: with an allowed class type, non-positive
capacity and a past start time, `create_class` reports `PastSchedule`,
not `InvalidCapacity`, because it checks the date before the capacity. -/
theorem create_class_order_cex :
    create_class ⟨[], []⟩ sampleT "c9" pastCapReq = .error .PastSchedule ∧
    create_class ⟨[], []⟩ sampleT "c9" pastCapReq ≠
      .error .InvalidCapacity := by
  refine ⟨by rfl, by decide⟩

/-- C5 (amended): `create_class` validates in the order class-type
enumeration, then date parse, then temporal validity, then capacity
positivity; any request with an allowed name and a parseable past start
time fails with `PastSchedule`, whatever its capacity. -/
theorem create_class_past_priority {s : StoreState} {now : Int}
    {nid name instr dts : String} {cap dt : Int}
    (hv : validate_class_type name = true)
    (hdt : fromisoformat dts = some dt) (hpast : dt < now) :
    create_class s now nid ⟨some name, some instr, some dts, some cap⟩ =
      .error .PastSchedule := by
  simp [create_class, hv, hdt, hpast]

/-- Witness for C5 (amended): the request with capacity 0 and past start
time is rejected as `PastSchedule`. -/
theorem create_class_past_priority_witness :
    create_class ⟨[], []⟩ sampleT "c9" pastCapReq = .error .PastSchedule :=
  @create_class_past_priority ⟨[], []⟩ sampleT "c9" "Yoga" "Jane"
    "2020-01-01T00:00:00" 0 pastT (by decide) (by rfl) (by decide)

/-- C6 fails on the code: a class whose start time equals the current
instant is accepted, because the code rejects only strictly past start
times (`date_time < now`). -/
theorem create_class_boundary_cex :
    fromisoformat "2030-01-01T10:00:00" = some sampleT ∧
    create_class ⟨[], []⟩ sampleT "c1" sampleClassReq =
      .ok (sampleS1, sampleC1) ∧
    create_class ⟨[], []⟩ sampleT "c1" sampleClassReq ≠
      .error .PastSchedule := by
  refine ⟨by rfl, by rfl, by decide⟩

/-- C6 (amended): with a valid name and parseable date, `create_class`
fails with `PastSchedule` exactly when the start time is strictly before
the current instant; a start time equal to now is accepted. -/
theorem create_class_pastschedule_iff {s : StoreState} {now : Int}
    {nid name instr dts : String} {cap dt : Int}
    (hv : validate_class_type name = true)
    (hdt : fromisoformat dts = some dt) :
    (create_class s now nid ⟨some name, some instr, some dts, some cap⟩ =
      .error .PastSchedule ↔ dt < now) := by
  have hunfold :
      create_class s now nid ⟨some name, some instr, some dts, some cap⟩ =
      (if dt < now then .error .PastSchedule
       else if cap ≤ 0 then .error .InvalidCapacity
       else .ok (⟨s.classes ++ [⟨nid, name, instr, dt, cap⟩], s.bookings⟩,
         ⟨nid, name, instr, dt, cap⟩)) := by
    simp [create_class, hv, hdt]
  rw [hunfold]
  by_cases hlt : dt < now
  · simp [hlt]
  · rw [if_neg hlt]
    simp only [hlt, iff_false]
    intro h
    split at h
    · simp at h
    · simp at h

/-- Witness for C6 (amended): creating `c1` with start time equal to the
current instant is not rejected as `PastSchedule`. -/
theorem create_class_pastschedule_iff_witness :
    (create_class ⟨[], []⟩ sampleT "c1" sampleClassReq =
      .error .PastSchedule) ↔ sampleT < sampleT :=
  @create_class_pastschedule_iff ⟨[], []⟩ sampleT "c1" "Yoga" "Jane"
    "2030-01-01T10:00:00" 2 sampleT (by decide) (by rfl)

/-- C7 fails on the code: a request whose `user_name` is present but all
whitespace passes the presence-only structural check and is rejected as
`EmptyUserName`, not `MissingField`. -/
theorem missingfield_cex :
    create_booking sampleS1 5 "b9" wsNameReq = .error .EmptyUserName ∧
    create_booking sampleS1 5 "b9" wsNameReq ≠ .error .MissingField := by
  refine ⟨by rfl, by decide⟩

/-- C7 (amended): `create_booking` fails with `MissingField` exactly when
one of the three body fields is absent; present-but-blank values pass the
presence check and fall through to the later rules (whitespace
`user_name` to `EmptyUserName`, unknown `class_id` to `NotFound`). -/
theorem missingfield_iff (s : StoreState) (now : Int) (nid : String)
    (req : BookingRequest) :
    (create_booking s now nid req = .error .MissingField ↔
      (req.class_id = none ∨ req.user_name = none ∨
        req.user_email = none)) := by
  rcases req with ⟨cid?, un?, ue?⟩
  cases cid? with
  | none => cases un? <;> cases ue? <;> simp [create_booking]
  | some cid =>
  cases un? with
  | none => cases ue? <;> simp [create_booking]
  | some un =>
  cases ue? with
  | none => simp [create_booking]
  | some ue =>
  constructor
  · intro h
    exact absurd h (create_booking_some_ne_missing s now nid cid un ue)
  · intro h
    simp at h

/-- C8: the display timezone never interferes with outcomes: two
`get_classes` calls differing only in the timezone parameter return the
same classes with the same `available_slots`, and two `get_bookings`
calls differing only in the timezone parameter succeed or fail
identically and agree on every field except the formatted class
`date_time` string. (`create_booking` and `create_class` read only their
body fields — they take no display-timezone input at all, as their
signatures show.) -/
theorem display_timezone_noninterference (s : StoreState) (now : Int)
    (tzA tzB email : Option String) :
    (get_classes s now tzA).map classEntryCore =
      (get_classes s now tzB).map classEntryCore ∧
    Except.map (List.map bookingEntryCore) (get_bookings s email tzA) =
      Except.map (List.map bookingEntryCore) (get_bookings s email tzB) := by
  constructor
  · simp [get_classes, List.map_map, Function.comp, classEntryCore]
  · cases email with
    | none => rfl
    | some e =>
      simp only [get_bookings]
      split
      · rfl
      · exact buildEntries_core_eq s _ _ _

/-- C9 fails on the code: `create_class` never inspects the instructor
value; an empty instructor string is accepted and stored unchanged, so a
reachable state can hold a class whose instructor is empty. -/
theorem instructor_unvalidated_cex :
    create_class ⟨[], []⟩ 0 "c7" emptyInstrReq =
      .ok (⟨[emptyInstrC], []⟩, emptyInstrC) ∧
    emptyInstrC.instructor = "" := by
  refine ⟨by rfl, by rfl⟩

/-- C9 (amended): `create_class` validates the instructor field only for
presence; every instructor string, the empty string included, is
accepted and stored verbatim, so stored classes may carry empty
instructor strings. -/
theorem create_class_any_instructor {s : StoreState} {now : Int}
    {nid name dts : String} {cap dt : Int} (instr : String)
    (hv : validate_class_type name = true)
    (hdt : fromisoformat dts = some dt)
    (hpast : ¬ dt < now) (hcap : 0 < cap) :
    create_class s now nid ⟨some name, some instr, some dts, some cap⟩ =
      .ok (⟨s.classes ++ [⟨nid, name, instr, dt, cap⟩], s.bookings⟩,
        ⟨nid, name, instr, dt, cap⟩) := by
  have hnle : ¬ cap ≤ 0 := by omega
  simp [create_class, hv, hdt, hpast, hnle]

/-- Witness for C9 (amended): the empty instructor string is accepted. -/
theorem create_class_any_instructor_witness :
    create_class ⟨[], []⟩ 0 "c7" emptyInstrReq =
      .ok (⟨[emptyInstrC], []⟩, emptyInstrC) :=
  @create_class_any_instructor ⟨[], []⟩ 0 "c7" "Yoga"
    "2030-01-01T10:00:00" 3 sampleT "" (by decide) (by rfl) (by decide)
    (by decide)

/-- C10: an unknown display-timezone name never makes the listing
operations fail: `convert_to_timezone` falls back to the stored
datetime's unconverted isoformat string, `get_classes` returns the same
listing with unconverted times, and `get_bookings` returns exactly the
unconverted result it would produce with no conversion applied. -/
theorem unknown_timezone_fallback (dt : Int) (tz : String) (s : StoreState)
    (now : Int) (email : String) (h : zoneOffset tz = none) :
    convert_to_timezone dt tz = isoformat dt ∧
    get_classes s now (some tz) =
      (s.classes.filter (fun cls => now ≤ cls.date_time)).map (fun cls =>
        { id := cls.id, name := cls.name, instructor := cls.instructor,
          date_time := isoformat cls.date_time, capacity := cls.capacity,
          available_slots :=
            cls.capacity - (bookingCountFor s cls.id : Int) }) ∧
    get_bookings s (some email) (some tz) =
      (if email.isEmpty || !validate_email email then
        .error .InvalidEmailParam
       else
        buildEntriesRaw s
          (s.bookings.filter (fun b => b.user_email == email))) := by
  refine ⟨?_, ?_, ?_⟩
  · simp [convert_to_timezone, h]
  · simp only [get_classes, Option.getD]
    apply List.map_congr_left
    intro cls hcls
    simp [convert_to_timezone, h]
  · simp only [get_bookings, Option.getD]
    split
    · rfl
    · exact buildEntries_unknown_tz h s _

/-- Witness for C10: with the unknown name `Mars/Olympus`, conversion
falls back, the class listing of `sampleS2` keeps unconverted times, and
the bookings listing for `a@example.com` is the unconverted one. -/
theorem unknown_timezone_fallback_witness :
    convert_to_timezone 5 "Mars/Olympus" = isoformat 5 ∧
    get_classes sampleS2 0 (some "Mars/Olympus") =
      (sampleS2.classes.filter (fun cls => 0 ≤ cls.date_time)).map
        (fun cls =>
          { id := cls.id, name := cls.name, instructor := cls.instructor,
            date_time := isoformat cls.date_time, capacity := cls.capacity,
            available_slots :=
              cls.capacity - (bookingCountFor sampleS2 cls.id : Int) }) ∧
    get_bookings sampleS2 (some "a@example.com") (some "Mars/Olympus") =
      (if "a@example.com".isEmpty || !validate_email "a@example.com" then
        .error .InvalidEmailParam
       else
        buildEntriesRaw sampleS2
          (sampleS2.bookings.filter
            (fun b => b.user_email == "a@example.com"))) :=
  unknown_timezone_fallback 5 "Mars/Olympus" sampleS2 0 "a@example.com"
    (by rfl)

end BookingAPI
